import Mathlib

/-!
Verification of the resource selection and batch orchestration engine of
`pmx.py`, a CLI for managing virtual machines and containers on a Proxmox
cluster.

The embedding is shallow: every remote fetch result (the cluster resource
collection, the HA record collection, the per-node replication collections,
snapshot listings) is passed to the modelled function as an explicit input,
standing for the parsed JSON the Python code obtains from `pvesh`.  Side
effects (lines printed, the interactive confirmation prompt, and remote
calls that mutate cluster state) are collected into an explicit event trace
in program order; concurrent dispatch (`asyncio.gather`) is determinised by
listing each task's events in task-creation order, which is faithful for
every property below (they only concern which prompts and calls occur, and
the sequential `--sync` path).  Python dicts are modelled preserving their
insertion-order semantics: key sets as first-appearance-deduplicated lists,
and the HA lookup as an insertion-ordered association list with overwrite.
-/

open List

namespace Pmx

/-- Python values that occur as dictionary keys in the script.  The `vmids`
dictionary built by `get_filtered_cluster_resources` holds `str` keys in the
explicit-IDs and cluster-wide branches but `int` keys in the node-scoped
branch; in Python, `"100" == 100` is `False`, which the two distinct
constructors reproduce. -/
inductive PyKey where
  | str (s : String)
  | int (n : Nat)
deriving DecidableEq, Repr

/-- An entry of the parsed `pvesh get /cluster/resources` collection.  The
`node` attribute is optional because the collection also contains entries
(pools, storage) modelled here with other `type` values; the Python code
guards `'node' in resource` before reading it in the node-scoped branch.
Compute entries (`lxc`/`qemu`) always carry `vmid`, `node`, `name`,
`status`; `uptime` defaults to `0` as in `resource.get('uptime', 0)`. -/
structure Resource where
  vmid : Nat
  node : Option String
  type : String
  status : String
  name : String
  id : String
  uptime : Nat
deriving DecidableEq, Repr

/-- The command-line arguments consumed by the orchestration core, with the
same fields and falsy defaults as the `argparse` definition (`--name` and
`--description` default to the falsy `False`, modelled as `none`). -/
structure Args where
  node : Bool
  sync : Bool
  skip_confirm : Bool
  do_not_purge_jobs : Bool
  do_not_destroy_unreferenced_disks : Bool
  name : Option String
  description : Option String
  force : Bool
  ha_state : String
  command : String
  ids : List String
deriving DecidableEq, Repr

/-- An observable effect of one invocation: a line printed, the interactive
`input()` confirmation prompt, or a `pvesh` request that is issued. -/
inductive Event where
  | printed (s : String)
  | prompt (s : String)
  | call (verb : String) (path : String) (options : List String)
deriving DecidableEq, Repr

/-- True exactly on the interactive confirmation prompt event. -/
def Event.isPrompt : Event → Bool
  | .prompt _ => true
  | _ => false

/-- True exactly on remote-call events. -/
def Event.isCall : Event → Bool
  | .call _ _ _ => true
  | _ => false

/-- Python truthiness of an optional string argument: `False` (here `none`)
and the empty string are falsy. -/
def truthyOpt : Option String → Bool
  | none => false
  | some s => s != ""

/-- Python `str.strip()`: remove leading and trailing whitespace.  Modelled
over the character list so concrete inputs evaluate in the kernel. -/
def pyStrip (s : String) : String :=
  ⟨((s.data.dropWhile Char.isWhitespace).reverse.dropWhile Char.isWhitespace).reverse⟩

/-- Python string slicing `s[n:]`, by code points. -/
def pyDrop (s : String) (n : Nat) : String := ⟨s.data.drop n⟩

/-- Key list of a Python dict populated by `for k in l: d[k] = v`: the keys
in first-appearance order, later duplicates dropped. -/
def dedupKeys {α : Type} [DecidableEq α] : List α → List α
  | [] => []
  | x :: xs => x :: (dedupKeys xs).filter (fun y => y ≠ x)

/-- The `print(f'{idx + 1}. {x}')` enumeration loop: one printed line per
entry, displayed 1-indexed. -/
def enumerateLines (xs : List String) : List Event :=
  xs.enum.map (fun p =>
    match p with
    | (i, x) => Event.printed (toString (i + 1) ++ ". " ++ x))

/-- The `if missing: print(header); <enumerate>` reporting pattern shared by
all resolver branches. -/
def missingReport (header : String) (xs : List String) : List Event :=
  if xs = [] then [] else Event.printed header :: enumerateLines xs

/-- The compute-relevant namespaces, `['lxc', 'qemu']` in the source. -/
def computeTypes : List String := ["lxc", "qemu"]

/-- Membership test of the node-scoped branch:
`'node' in resource and resource['node'] in nodes and resource['type'] in ['lxc', 'qemu']`. -/
def byNodeMatch (nodeKeys : List String) (r : Resource) : Bool :=
  (match r.node with
   | some n => decide (n ∈ nodeKeys)
   | none => false) && decide (r.type ∈ computeTypes)

/-- A node name is marked present when at least one compute resource in the
cluster collection is owned by it (for a requested node `n`, the source's
`nodes[resource['node']] = True` fires exactly under this condition). -/
def nodeFound (cluster : List Resource) (n : String) : Bool :=
  cluster.any (fun r => decide (r.node = some n) && decide (r.type ∈ computeTypes))

/-- The node names of the request that were never marked present, in dict
key order. -/
def byNodeMissing (nodeKeys : List String) (cluster : List Resource) : List String :=
  nodeKeys.filter (fun n => !(nodeFound cluster n))

/-- A requested identifier is marked present when some live compute resource
has that stringified numeric ID. -/
def vmFound (cluster : List Resource) (i : String) : Bool :=
  cluster.any (fun r => decide (r.type ∈ computeTypes) && decide (toString r.vmid = i))

/-- The requested identifiers never marked present, in dict key order. -/
def byIdsMissing (keys : List String) (cluster : List Resource) : List String :=
  keys.filter (fun i => !(vmFound cluster i))

/-- Result of `get_filtered_cluster_resources`: the resolved resources, the
key list of the `vmids` dict, and the lines printed while resolving.  (In
the `--node`-without-ids branch the source returns the bare list `resources`
instead of a pair; only its printed output and empty resource set are
modelled here.) -/
structure ResolveResult where
  resources : List Resource
  vmids : List PyKey
  events : List Event
deriving DecidableEq, Repr

/-- Shallow embedding of `get_filtered_cluster_resources` over a given
cluster collection (the parsed `pvesh get /cluster/resources` output).  Note
that the node-scoped branch stores the integer `resource['vmid']` as dict
key while the other two branches store `str(resource['vmid'])`. -/
def get_filtered_cluster_resources (args : Args) (cluster : List Resource) : ResolveResult :=
  if args.node then
    if args.ids = [] then ⟨[], [], [Event.printed "Missing Node ids "]⟩
    else
      let nodeKeys := dedupKeys args.ids
      let rs := cluster.filter (fun r => byNodeMatch nodeKeys r)
      ⟨rs, dedupKeys (rs.map (fun r => PyKey.int r.vmid)),
        missingReport "Nodes do not exist:" (byNodeMissing nodeKeys cluster)⟩
  else if args.ids ≠ [] then
    let keys := dedupKeys args.ids
    let rs := cluster.filter (fun r =>
      decide (r.type ∈ computeTypes) && decide (toString r.vmid ∈ keys))
    ⟨rs, keys.map PyKey.str,
      missingReport "VMs do not exist:" (byIdsMissing keys cluster)⟩
  else if args.command = "status" ∨ args.command = "ha" ∨ args.command = "listsnapshot" then
    let rs := cluster.filter (fun r => decide (r.type ∈ computeTypes))
    ⟨rs, dedupKeys (rs.map (fun r => PyKey.str (toString r.vmid))), []⟩
  else ⟨[], [], []⟩

/-- Shallow embedding of `humanize_seconds`, with the `divmod` chain
inlined: `seconds = s % 60`, `minutes = s / 60 % 60`, `hours = s / 60 / 60`,
`days = hours / 24`, and the day branch guarded by the source's strict
`hours > 24`. -/
def humanize_seconds : Option Nat → String
  | none => ""
  | some s =>
    if s = 0 then ""
    else if 24 < s / 60 / 60 then
      toString (s / 60 / 60 / 24) ++ "d " ++ toString (s / 60 / 60 % 24) ++ "h " ++
        toString (s / 60 % 60) ++ "m"
    else if 0 < s / 60 / 60 then
      toString (s / 60 / 60) ++ "h " ++ toString (s / 60 % 60) ++ "m"
    else if 0 < s / 60 then
      toString (s / 60) ++ "m " ++ toString (s % 60) ++ "s"
    else toString (s % 60) ++ "s"

/-- Modelled from the amended claim wording: same as the source, except the
day breakdown applies only from 25 hours (90000 seconds) upward, and
durations of at least 24 but less than 25 hours render as `"24h {m}m"`. -/
def humanize_seconds_amended_spec : Option Nat → String
  | none => ""
  | some s =>
    if s = 0 then ""
    else if 90000 ≤ s then
      toString (s / 60 / 60 / 24) ++ "d " ++ toString (s / 60 / 60 % 24) ++ "h " ++
        toString (s / 60 % 60) ++ "m"
    else if 3600 ≤ s then
      toString (s / 60 / 60) ++ "h " ++ toString (s / 60 % 60) ++ "m"
    else if 60 ≤ s then
      toString (s / 60) ++ "m " ++ toString (s % 60) ++ "s"
    else toString s ++ "s"

/-- Shallow embedding of `format_status`. -/
def format_status (r : Resource) : String :=
  let uptime_str :=
    if r.status = "running" ∧ 0 < r.uptime then humanize_seconds (some r.uptime) else ""
  pyStrip (r.type ++ "/" ++ toString r.vmid ++ ": " ++ r.name ++ " " ++ r.status ++ " " ++
    uptime_str)

/-- Shallow embedding of `validate_actions`: the allowed flag plus the
rejection lines printed. -/
def validate_actions (vmid : Nat) (action status : String) : Bool × List String :=
  if status = "stopped" ∧ (action = "stop" ∨ action = "shutdown") then
    (false, ["VM " ++ toString vmid ++ " is already stopped. Only \x27start\x27 is allowed."])
  else if status = "running" ∧ action = "start" then
    (false,
      ["VM " ++ toString vmid ++ " is already running. Only \x27stop\x27 or \x27shutdown\x27 are allowed."])
  else (true, [])

/-- Shallow embedding of `perform_command` for the lifecycle actions. -/
def perform_command (args : Args) (r : Resource) : List Event :=
  let action := args.command
  let v := validate_actions r.vmid action r.status
  if v.1 then
    v.2.map Event.printed ++
      [Event.printed (action.capitalize ++ " command sent for " ++ r.type ++ "/" ++
        toString r.vmid ++ "."),
       Event.call "create"
         ("/nodes/" ++ (r.node.getD "") ++ "/" ++ r.type ++ "/" ++ toString r.vmid ++
           "/status/" ++ action) []]
  else v.2.map Event.printed

/-- Shallow embedding of `destroy_command`: the two destroy options are on
by default and disabled by the inverted flags. -/
def destroy_command (args : Args) (r : Resource) : List Event :=
  let api_path := "/nodes/" ++ (r.node.getD "") ++ "/" ++ r.type ++ "/" ++ toString r.vmid
  let options :=
    (if !args.do_not_purge_jobs then ["--purge"] else []) ++
    (if !args.do_not_destroy_unreferenced_disks then ["--destroy-unreferenced-disks"] else [])
  [Event.printed ("Destroying " ++ r.type ++ "/" ++ toString r.vmid ++ "."),
   Event.call "delete" api_path options]

/-- Shallow embedding of `snapshot_command`. -/
def snapshot_command (args : Args) (r : Resource) : List Event :=
  let api_path :=
    "/nodes/" ++ (r.node.getD "") ++ "/" ++ r.type ++ "/" ++ toString r.vmid ++ "/snapshot"
  let options :=
    ["--snapname", args.name.getD ""] ++
    (if truthyOpt args.description then ["--description", args.description.getD ""] else [])
  [Event.printed ("Snapshotting " ++ r.type ++ "/" ++ toString r.vmid ++ "."),
   Event.call "create" api_path options]

/-- Shallow embedding of `delsnapshot_command`. -/
def delsnapshot_command (args : Args) (r : Resource) : List Event :=
  let api_path :=
    "/nodes/" ++ (r.node.getD "") ++ "/" ++ r.type ++ "/" ++ toString r.vmid ++
      "/snapshot/" ++ args.name.getD ""
  let options := if args.force then ["--force", "true"] else []
  [Event.printed ("Delete Snapshot " ++ r.type ++ "/" ++ toString r.vmid ++ "."),
   Event.call "delete" api_path options]

/-- Shallow embedding of `listsnapshot_command`; the parsed response of the
`ls` request is supplied by the oracle `ls` mapping an api path to the
snapshot names found there. -/
def listsnapshot_command (ls : String → List String) (r : Resource) : List Event :=
  let api_path :=
    "/nodes/" ++ (r.node.getD "") ++ "/" ++ r.type ++ "/" ++ toString r.vmid ++ "/snapshot"
  Event.call "ls" api_path [] ::
    (ls api_path).map (fun n => Event.printed (r.id ++ ": " ++ n))

/-- Shallow embedding of `vzdump_command`. -/
def vzdump_command (r : Resource) : List Event :=
  let api_path := "/nodes/" ++ (r.node.getD "") ++ "/vzdump"
  [Event.printed ("Vzdump " ++ r.id),
   Event.call "create" api_path ["--vmid", toString r.vmid, "--compress", "zstd"]]

/-- An entry of the parsed `pvesh get /cluster/ha/resources` collection; the
source tolerates records without `sid` (skipped) and reads `state` with
`.get`, so both are optional. -/
structure RawHa where
  sid : Option String
  state : Option String
deriving DecidableEq, Repr

/-- An HA record as stored in the lookup: its `sid` is known present. -/
structure HaRec where
  sid : String
  state : Option String
deriving DecidableEq, Repr

/-- Python dict assignment `d[k] = v` on an insertion-ordered association
list: overwrite in place if the key exists, else append. -/
def dictInsert (d : List (String × HaRec)) (k : String) (v : HaRec) : List (String × HaRec) :=
  if d.any (fun p => decide (p.1 = k)) then
    d.map (fun p => if p.1 = k then (k, v) else p)
  else d ++ [(k, v)]

/-- Python dict read `d.get(k)`. -/
def dget (d : List (String × HaRec)) (k : String) : Option HaRec :=
  (d.find? (fun p => decide (p.1 = k))).map (fun p => p.2)

/-- Shallow embedding of `get_filtered_cluster_ha_resources` over the parsed
HA collection: derive the key by stripping the three-character type prefix
from `sid` (`sid[3:]`, here `pyDrop sid 3`), keep only keys present in `vmids`, and build the
lookup in fetch order. -/
def get_filtered_cluster_ha_resources (vmids : List PyKey) (output : List RawHa) :
    List (String × HaRec) :=
  output.foldl (fun d res =>
    match res.sid with
    | none => d
    | some sid =>
      let vmid := pyDrop sid 3
      if PyKey.str vmid ∈ vmids then dictInsert d vmid ⟨sid, res.state⟩ else d) []

/-- Shallow embedding of `ha_command`. -/
def ha_command (r : Resource) (ha : Option HaRec) : List Event :=
  match ha with
  | some h => [Event.printed (r.id ++ ": " ++ h.state.getD "")]
  | none => [Event.printed (r.id ++ ": does not exist")]

/-- Shallow embedding of `ha_set_command`.  In the already-in-state branch
the message interpolates `ha_resource['state']`, which the branch condition
makes equal to the requested state. -/
def ha_set_command (haState : String) (r : Resource) (ha : Option HaRec) : List Event :=
  match ha with
  | some h =>
    if some haState = h.state then
      [Event.printed (r.type ++ "/" ++ toString r.vmid ++ " state is already " ++ haState)]
    else
      [Event.printed ("Updating ha " ++ r.type ++ "/" ++ toString r.vmid ++ " state: " ++ haState),
       Event.call "set" ("/cluster/ha/resources/" ++ h.sid) ["--state", haState]]
  | none =>
    let sid :=
      if r.type = "qemu" then "vm:" ++ toString r.vmid else "ct:" ++ toString r.vmid
    [Event.printed ("Creating ha " ++ r.type ++ "/" ++ toString r.vmid ++ " state: " ++ haState),
     Event.call "create" "/cluster/ha/resources"
       ["--sid", sid, "--comment", r.name, "--state", haState]]

/-- Shallow embedding of `ha_remove_command`. -/
def ha_remove_command (r : Resource) (ha : Option HaRec) : List Event :=
  match ha with
  | none => [Event.printed ("HA resources does not exist " ++ r.id)]
  | some h =>
    [Event.printed ("Remove HA " ++ r.type ++ "/" ++ toString r.vmid),
     Event.call "delete" ("/cluster/ha/resources/" ++ h.sid) []]

/-- The resources the batch dispatcher `run_on_cluster_resources` actually
applies the action function to.  The sequential (`--sync`) path iterates the
resolved list directly; the concurrent path re-filters by requested raw
identifier when explicit IDs were given (first match per identifier, and a
falsy `vmid` never matches, per `if vmid and str(vmid) == id`). -/
def dispatch_set (args : Args) (resources : List Resource) : List Resource :=
  if args.sync then resources
  else if args.node then resources
  else if args.ids ≠ [] then
    args.ids.filterMap (fun i =>
      resources.find? (fun r => decide (r.vmid ≠ 0) && decide (toString r.vmid = i)))
  else resources

/-- Shallow embedding of `run_on_cluster_resources`: the events of the
per-resource action over the dispatch set, listed in dispatch order. -/
def run_on_cluster_resources (args : Args) (resources : List Resource)
    (fn : Resource → List Event) : List Event :=
  (dispatch_set args resources).flatMap fn

/-- Shallow embedding of `main_vms`: resolve, bail out on an empty resolved
set, then branch on the command.  `haOutput` is the parsed HA collection
fetched inside the `ha` family branches, `confirmInput` the operator's reply
to the destroy confirmation, `ls` the snapshot-listing oracle. -/
def main_vms (args : Args) (cluster : List Resource) (haOutput : List RawHa)
    (confirmInput : String) (ls : String → List String) : List Event :=
  let res := get_filtered_cluster_resources args cluster
  let resources := res.resources
  if resources = [] then res.events ++ [Event.printed "No resources found"]
  else
    res.events ++
    (if args.command = "status" then
      resources.map (fun r => Event.printed (format_status r))
    else if args.command ∈ ["start", "stop", "shutdown", "reboot", "resume", "suspend"] then
      run_on_cluster_resources args resources (perform_command args)
    else if args.command = "destroy" then
      if args.ids = [] then [Event.printed "An ID is required when destroying a vm"]
      else if args.skip_confirm then
        run_on_cluster_resources args resources (destroy_command args)
      else
        (Event.printed "Are you sure you want to destroy the following resources?" ::
          resources.enum.map (fun p =>
            match p with
            | (i, r) => Event.printed (toString (i + 1) ++ ". " ++ r.id ++ ": " ++ r.name)) ++
          [Event.printed "\n", Event.prompt "Enter \x27y\x27 to confirm: "]) ++
        (if confirmInput.toLower = "y" ∨ confirmInput.toLower = "yes" then
          run_on_cluster_resources args resources (destroy_command args)
        else [Event.printed "Cancelled destroying resources"])
    else if args.command = "snapshot" then
      if !truthyOpt args.name then [Event.printed "--name argument is required"]
      else run_on_cluster_resources args resources (snapshot_command args)
    else if args.command = "delsnapshot" then
      if !truthyOpt args.name then [Event.printed "--name argument is required"]
      else run_on_cluster_resources args resources (delsnapshot_command args)
    else if args.command = "listsnapshot" then
      run_on_cluster_resources args resources (listsnapshot_command ls)
    else if args.command = "vzdump" then
      run_on_cluster_resources args resources vzdump_command
    else if args.command = "ha" then
      let haMap := get_filtered_cluster_ha_resources res.vmids haOutput
      run_on_cluster_resources args resources
        (fun r => ha_command r (dget haMap (toString r.vmid)))
    else if args.command = "ha-set" then
      let haMap := get_filtered_cluster_ha_resources res.vmids haOutput
      run_on_cluster_resources args resources
        (fun r => ha_set_command args.ha_state r (dget haMap (toString r.vmid)))
    else if args.command = "ha-remove" then
      if args.ids = [] then
        [Event.printed "An ID is required when removing an HA configuration"]
      else
        let haMap := get_filtered_cluster_ha_resources res.vmids haOutput
        run_on_cluster_resources args resources
          (fun r => ha_remove_command r (dget haMap (toString r.vmid)))
    else [Event.printed ("Command missing implementation: " ++ args.command)])

/-- The outcome of one subprocess run of `pvesh`, as the script observes it:
exit status, decoded standard output and standard error. -/
structure ProcResult where
  returncode : Int
  stdout : String
  stderr : String
deriving DecidableEq, Repr

/-- What `run_pvesh_command` hands back to its caller: the empty dict (the
literal `{}` returned on failures, empty bodies and `delete`), or the value
parsed from a response body. -/
inductive PveshValue where
  | emptyDict
  | parsed (body : String)
deriving DecidableEq, Repr

/-- Normal return versus an exception propagating out of
`run_pvesh_command` (the source's `try` only catches
`subprocess.CalledProcessError`, so a `json.loads` decode error escapes). -/
inductive PveshOutcome where
  | ok (v : PveshValue)
  | raised (msg : String)
deriving DecidableEq, Repr

/-- Shallow embedding of `run_pvesh_command`: the lines printed and the
outcome, given the subprocess result.  `parses` is the oracle saying whether
`json.loads` succeeds on a body (it raises a decode error otherwise). -/
def run_pvesh_command (parses : String → Bool) (pvesh_command : String) (api_path : String)
    (pr : ProcResult) : List Event × PveshOutcome :=
  if pr.returncode ≠ 0 then
    ([Event.printed ("Error executing pvesh command on " ++ api_path ++ ": " ++ pr.stderr)],
      PveshOutcome.ok PveshValue.emptyDict)
  else
    let result := pyStrip pr.stdout
    if result = "" then ([], PveshOutcome.ok PveshValue.emptyDict)
    else if pvesh_command ≠ "delete" then
      if parses result then ([], PveshOutcome.ok (PveshValue.parsed result))
      else ([], PveshOutcome.raised ("json.loads decode error: " ++ result))
    else ([], PveshOutcome.ok PveshValue.emptyDict)

/-- An entry of a parsed `/nodes/{node}/replication/` collection, with the
attributes `get_filtered_nodes_replication` consults. -/
structure RepRec where
  id : String
  guest : Nat
  source : String
  target : String
deriving DecidableEq, Repr

/-- Comparison by target node name, the `key=lambda x: x['target']` of the
source's per-guest sort. -/
def targetLe (a b : RepRec) : Prop := a.target ≤ b.target

instance : DecidableRel targetLe :=
  fun a b => inferInstanceAs (Decidable (a.target ≤ b.target))

instance : IsTotal RepRec targetLe := ⟨fun a b => le_total a.target b.target⟩

instance : IsTrans RepRec targetLe := ⟨fun _ _ _ h₁ h₂ => le_trans h₁ h₂⟩

/-- Shallow embedding of `get_filtered_nodes_replication` over the gathered
per-node fetch results: group every record by guest ID (dict insertion
order), sort the guest keys ascending, stably sort each guest group by
target node name, and flatten.  Python's `sorted` is a stable sort, as is
`List.insertionSort`, so the two agree element for element. -/
def get_filtered_nodes_replication (node_configs : List (List RepRec)) : List RepRec :=
  let all := node_configs.flatten
  let keys := List.insertionSort (fun a b => a ≤ b) (dedupKeys (all.map (fun c => c.guest)))
  keys.flatMap (fun v => List.insertionSort targetLe (all.filter (fun c => decide (c.guest = v))))

/-- The display ordering contract of the replication listing: ascending
guest ID, and ascending target node name within one guest. -/
def repLe (a b : RepRec) : Prop :=
  a.guest < b.guest ∨ (a.guest = b.guest ∧ a.target ≤ b.target)

/-! Concrete inputs used by the counterexample and witness theorems. -/

/-- A compute resource with numeric ID 200 on node `n1`. -/
def rVm200 : Resource := ⟨200, some "n1", "lxc", "running", "web", "lxc/200", 0⟩

/-- A compute resource with numeric ID 100 on node `n1`. -/
def rVm100 : Resource := ⟨100, some "n1", "lxc", "running", "web", "lxc/100", 0⟩

/-- A `--sync` invocation of `stop` naming the explicit ID `100`. -/
def argsSyncStop100 : Args :=
  ⟨false, true, false, false, false, none, none, false, "started", "stop", ["100"]⟩

/-- An asynchronous invocation of `stop` naming the explicit ID `100`. -/
def argsAsyncStop100 : Args :=
  ⟨false, false, false, false, false, none, none, false, "started", "stop", ["100"]⟩

/-- A node-scoped `ha` query for node `n1`. -/
def argsNodeHa : Args :=
  ⟨true, false, false, false, false, none, none, false, "started", "ha", ["n1"]⟩

/-- An HA record for container 100, as fetched. -/
def haCt100 : RawHa := ⟨some "ct:100", some "started"⟩

/-- An HA record for container 100, as stored in the lookup. -/
def haRecCt100 : HaRec := ⟨"ct:100", some "started"⟩

/-- A snapshot-listing oracle returning no snapshots. -/
def noSnapshots : String → List String := fun _ => []

/-- A cluster-resource entry describing node `a` itself (type `node`): the
node exists in the cluster but the entry is not a compute resource. -/
def nodeEntryA : Resource := ⟨0, some "a", "node", "online", "a", "node/a", 0⟩

/-- A compute resource living on node `b`. -/
def lxcOnB : Resource := ⟨100, some "b", "lxc", "running", "w", "lxc/100", 0⟩

/-- A node-scoped `status` invocation requesting node `a`. -/
def argsNodeA : Args :=
  ⟨true, false, false, false, false, none, none, false, "started", "status", ["a"]⟩

/-- A `destroy` invocation with an empty selector: no node scope and no
explicit IDs. -/
def argsDestroyEmpty : Args :=
  ⟨false, false, false, false, false, none, none, false, "started", "destroy", []⟩

/-- An explicit-IDs `status` invocation requesting `7`, `8` and `7` again,
none of which exist in the concrete cluster below. -/
def argsIds787 : Args :=
  ⟨false, false, false, false, false, none, none, false, "started", "status", ["7", "8", "7"]⟩

/-- A `json.loads` oracle on which every body is malformed. -/
def neverParses : String → Bool := fun _ => false

/-- Replication job of guest 100 targeting node `b`. -/
def repB : RepRec := ⟨"100-0", 100, "n1", "b"⟩

/-- Replication job of guest 100 targeting node `a`, fetched after `repB`. -/
def repA : RepRec := ⟨"100-1", 100, "n1", "a"⟩

/-- Replication job of guest 200 targeting node `c`. -/
def repC : RepRec := ⟨"200-0", 200, "n2", "c"⟩

/-! Helper lemmas about the dict-key and reporting models. -/

/-- Dict key sets hold exactly the inserted elements. -/
theorem mem_dedupKeys {α : Type} [DecidableEq α] (l : List α) (a : α) :
    a ∈ dedupKeys l ↔ a ∈ l := by
  induction l with
  | nil => simp [dedupKeys]
  | cons x xs ih =>
    by_cases hax : a = x
    · subst hax; simp [dedupKeys]
    · simp [dedupKeys, List.mem_filter, hax, ih]

/-- Dict key lists are duplicate-free. -/
theorem nodup_dedupKeys {α : Type} [DecidableEq α] (l : List α) : (dedupKeys l).Nodup := by
  induction l with
  | nil => simp [dedupKeys]
  | cons x xs ih =>
    rw [dedupKeys]
    refine List.nodup_cons.mpr ⟨?_, ih.filter _⟩
    simp [List.mem_filter]

/-- A nonempty insertion sequence leaves a nonempty key list. -/
theorem dedupKeys_ne_nil {α : Type} [DecidableEq α] (l : List α) (h : l ≠ []) :
    dedupKeys l ≠ [] := by
  cases l with
  | nil => exact absurd rfl h
  | cons x xs => simp [dedupKeys]

/-- Enumerated report lines are printed lines only. -/
theorem enumerateLines_only_prints (xs : List String) :
    ∀ e ∈ enumerateLines xs, e.isPrompt = false ∧ e.isCall = false := by
  intro e he
  rw [enumerateLines] at he
  rcases List.mem_map.mp he with ⟨p, _, hp⟩
  rcases p with ⟨i, x⟩
  subst hp
  exact ⟨rfl, rfl⟩

/-- Missing-identifier reports consist of printed lines only: no prompt and
no remote call. -/
theorem missingReport_only_prints (header : String) (xs : List String) :
    ∀ e ∈ missingReport header xs, e.isPrompt = false ∧ e.isCall = false := by
  intro e he
  rw [missingReport] at he
  split at he
  · simp at he
  · rcases List.mem_cons.mp he with rfl | he
    · exact ⟨rfl, rfl⟩
    · exact enumerateLines_only_prints _ e he

/-- Resolution prints diagnostics but performs no prompt and issues no
remote mutation. -/
theorem resolve_only_prints (args : Args) (cluster : List Resource) :
    ∀ e ∈ (get_filtered_cluster_resources args cluster).events,
      e.isPrompt = false ∧ e.isCall = false := by
  intro e he
  rw [get_filtered_cluster_resources] at he
  split_ifs at he
  · simp at he; subst he; exact ⟨rfl, rfl⟩
  · exact missingReport_only_prints _ _ e he
  · exact missingReport_only_prints _ _ e he
  · simp at he
  · simp at he

/-- Pointwise-equal functions give equal flatMaps. -/
theorem flatMap_congr_mem {α β : Type} {l : List α} {f g : α → List β}
    (h : ∀ a ∈ l, f a = g a) : l.flatMap f = l.flatMap g := by
  induction l with
  | nil => rfl
  | cons x xs ih =>
    rw [List.flatMap_cons, List.flatMap_cons, h x (List.mem_cons_self x xs),
      ih (fun a ha => h a (List.mem_cons_of_mem x ha))]

/-- Concatenating, over a duplicate-free key list covering every element's
key, the sublists of `l` carrying each key yields a permutation of `l`. -/
theorem flatMap_filter_key_perm {α β : Type} [DecidableEq β] (key : α → β) :
    ∀ (ks : List β) (l : List α), ks.Nodup → (∀ a ∈ l, key a ∈ ks) →
      List.Perm (ks.flatMap (fun v => l.filter (fun a => decide (key a = v)))) l := by
  intro ks
  induction ks with
  | nil =>
    intro l _ hcov
    have hl : l = [] := by
      cases l with
      | nil => rfl
      | cons a l => exact absurd (hcov a (List.mem_cons_self a l)) (List.not_mem_nil _)
    subst hl
    simp
  | cons k ks ih =>
    intro l hnd hcov
    rw [List.flatMap_cons]
    have hrest : ks.flatMap (fun v => l.filter (fun a => decide (key a = v))) =
        ks.flatMap (fun v =>
          (l.filter (fun a => !decide (key a = k))).filter (fun a => decide (key a = v))) := by
      apply flatMap_congr_mem
      intro v hv
      have hvk : v ≠ k := fun hh => (List.nodup_cons.mp hnd).1 (hh ▸ hv)
      rw [List.filter_filter]
      apply List.filter_congr
      intro a _
      by_cases hav : key a = v
      · have hak : key a ≠ k := fun hh => hvk (hav.symm.trans hh)
        simp [hav, hak, hvk]
      · simp [hav]
    have hcov' : ∀ a ∈ l.filter (fun a => !decide (key a = k)), key a ∈ ks := by
      intro a ha
      rcases List.mem_filter.mp ha with ⟨hal, hne⟩
      rcases List.mem_cons.mp (hcov a hal) with heq | hmem
      · simp [heq] at hne
      · exact hmem
    have ihp := ih (l.filter (fun a => !decide (key a = k))) (List.nodup_cons.mp hnd).2 hcov'
    rw [hrest]
    exact (List.Perm.append_left _ ihp).trans (List.filter_append_perm _ l)

/-- Flattening per-key groups along a strictly ascending key list, with the
groups internally sorted by target, is sorted for the display contract
relation. -/
theorem pairwise_repLe_flatMap (ks : List Nat) (g : Nat → List RepRec)
    (hks : List.Pairwise (fun a b => a < b) ks)
    (hguest : ∀ v, ∀ x ∈ g v, x.guest = v)
    (hsorted : ∀ v, List.Pairwise targetLe (g v)) :
    List.Pairwise repLe (ks.flatMap g) := by
  induction ks with
  | nil => simp
  | cons k ks ih =>
    rw [List.flatMap_cons, List.pairwise_append]
    refine ⟨?_, ih (List.pairwise_cons.mp hks).2, ?_⟩
    · exact (hsorted k).imp_of_mem (fun {a b} ha hb hab =>
        Or.inr ⟨(hguest k a ha).trans (hguest k b hb).symm, hab⟩)
    · intro a ha b hb
      rcases List.mem_flatMap.mp hb with ⟨v, hv, hbv⟩
      refine Or.inl ?_
      rw [hguest k a ha, hguest v b hbv]
      exact (List.pairwise_cons.mp hks).1 v hv

/-! Claim theorems. -/

/-- C2: for every resource ID, action and status, the precondition validator
returns disallowed exactly when the status is `stopped` and the action is
`stop` or `shutdown`, or the status is `running` and the action is `start`;
every other pair — including `start` from `stopped`, `stop` or `shutdown`
from `running`, and any action from an unrecognized status — is allowed. -/
theorem validate_actions_characterization (vmid : Nat) (action status : String) :
    (validate_actions vmid action status).1 = false ↔
      (status = "stopped" ∧ (action = "stop" ∨ action = "shutdown")) ∨
        (status = "running" ∧ action = "start") := by
  rw [validate_actions]
  split_ifs with h1 h2 <;> simp_all

/-- C4 (amended): the humanizer agrees everywhere with the amended
description, in which the day breakdown starts only strictly above 24 hours
(at 90000 seconds): `0`/absent give `""`, below one minute gives
`"{seconds}s"`, below one hour `"{minutes}m {seconds}s"`, below 25 hours
`"{hours}h {minutes}m"` (with `hours` running up to `24`), and from 25
hours `"{days}d {hours}h {minutes}m"`; the claim's four examples all
hold. -/
theorem humanize_seconds_matches_amended_spec :
    (∀ s, humanize_seconds s = humanize_seconds_amended_spec s) ∧
      humanize_seconds (some 45) = "45s" ∧ humanize_seconds (some 125) = "2m 5s" ∧
      humanize_seconds (some 3700) = "1h 1m" ∧ humanize_seconds (some 90000) = "1d 1h 0m" := by
  refine ⟨?_, by decide, by decide, by decide, by decide⟩
  intro s
  match s with
  | none => rfl
  | some n =>
    rw [humanize_seconds, humanize_seconds_amended_spec]
    split_ifs <;> first
      | rfl
      | omega
      | (rw [Nat.mod_eq_of_lt (by omega)])

/-- C4 (counterexample): a duration of exactly 24 hours is at least 24
hours, yet the humanizer renders it as `"24h 0m"` rather than the claimed
`"{days}d {hours}h {minutes}m"` breakdown `"1d 0h 0m"`, because the source
guards the day branch with the strict `hours > 24`. -/
theorem humanize_seconds_day_boundary_counterexample :
    humanize_seconds (some 86400) = "24h 0m" ∧ humanize_seconds (some 86400) ≠ "1d 0h 0m" := by
  decide

/-- C7: when a resource already has an HA record whose state equals the
requested state, `ha_set_command` prints the "already" message and issues no
remote call at all — in particular no `set` call. -/
theorem ha_set_already_in_state (haState : String) (r : Resource) (h : HaRec)
    (hs : h.state = some haState) :
    ha_set_command haState r (some h) =
      [Event.printed (r.type ++ "/" ++ toString r.vmid ++ " state is already " ++ haState)] ∧
      ∀ e ∈ ha_set_command haState r (some h), e.isCall = false := by
  constructor
  · rw [ha_set_command, if_pos hs.symm]
  · intro e he
    rw [ha_set_command, if_pos hs.symm] at he
    simp at he
    subst he
    rfl

/-- Witness for C7 at a concrete input: container 100 with an HA record
already in state `started`. -/
theorem ha_set_already_in_state_witness :
    haRecCt100.state = some "started" ∧
      ha_set_command "started" rVm100 (some haRecCt100) =
        [Event.printed ("lxc" ++ "/" ++ toString 100 ++ " state is already " ++ "started")] :=
  ⟨rfl, (ha_set_already_in_state "started" rVm100 haRecCt100 rfl).1⟩

/-- C8 (amended): a non-zero exit of the remote client is non-fatal — the
diagnostic naming the offending path is printed and the empty result is
returned, so the caller continues; but a malformed (unparseable) response
body on a non-`delete` verb raises a decode error that `run_pvesh_command`
does not catch. -/
theorem remote_call_failure_amended :
    (∀ (parses : String → Bool) (cmd api_path : String) (pr : ProcResult),
        pr.returncode ≠ 0 →
        run_pvesh_command parses cmd api_path pr =
          ([Event.printed ("Error executing pvesh command on " ++ api_path ++ ": " ++ pr.stderr)],
            PveshOutcome.ok PveshValue.emptyDict)) ∧
      (∀ (parses : String → Bool) (cmd api_path : String) (pr : ProcResult),
        pr.returncode = 0 → pyStrip pr.stdout ≠ "" → cmd ≠ "delete" →
        parses (pyStrip pr.stdout) = false →
        run_pvesh_command parses cmd api_path pr =
          ([], PveshOutcome.raised ("json.loads decode error: " ++ pyStrip pr.stdout))) := by
  constructor
  · intro parses cmd api_path pr h
    rw [run_pvesh_command, if_pos h]
  · intro parses cmd api_path pr h0 hne hcmd hparse
    rw [run_pvesh_command, if_neg (by simp [h0]), if_neg hne, if_pos hcmd, hparse]
    simp

/-- Witness for C8 at concrete inputs: exit code 2 prints the path-bearing
diagnostic and returns the empty dict; exit code 0 with the unparseable
body `garbage` raises. -/
theorem remote_call_failure_amended_witness :
    ((2 : Int) ≠ 0 ∧
        run_pvesh_command neverParses "get" "/x" ⟨2, "", "boom"⟩ =
          ([Event.printed ("Error executing pvesh command on " ++ "/x" ++ ": " ++ "boom")],
            PveshOutcome.ok PveshValue.emptyDict)) ∧
      run_pvesh_command neverParses "get" "/cluster/resources" ⟨0, "garbage", ""⟩ =
        ([], PveshOutcome.raised ("json.loads decode error: " ++ pyStrip "garbage")) :=
  ⟨⟨by decide, remote_call_failure_amended.1 neverParses "get" "/x" ⟨2, "", "boom"⟩ (by decide)⟩,
    remote_call_failure_amended.2 neverParses "get" "/cluster/resources" ⟨0, "garbage", ""⟩
      rfl (by decide) (by decide) rfl⟩

/-- C8 (counterexample): the claim says every remote-call failure —
including a malformed response body — is caught and never raised to the
caller; but on a well-exited `get` whose body does not parse, the call
raises a decode error instead of returning. -/
theorem remote_call_malformed_raises_counterexample :
    (run_pvesh_command neverParses "get" "/cluster/resources" ⟨0, "garbage", ""⟩).2 =
      PveshOutcome.raised "json.loads decode error: garbage" := by
  decide

/-- C3 (amended): the ByIds re-filter of the batch dispatcher applies only
to the concurrent path: when `--sync` is off, no node scope is given and
explicit IDs are present, every dispatched resource has a stringified
numeric ID among the requested raw identifiers (and comes from the resolved
set).  In sync mode the dispatcher iterates the resolved set unfiltered. -/
theorem dispatch_byids_refilter_async (args : Args) (resources : List Resource) (r : Resource)
    (hs : args.sync = false) (hn : args.node = false) (hi : args.ids ≠ [])
    (hr : r ∈ dispatch_set args resources) :
    toString r.vmid ∈ args.ids ∧ r ∈ resources := by
  rw [dispatch_set, hs, hn] at hr
  simp only [Bool.false_eq_true, if_false, if_pos hi] at hr
  rcases List.mem_filterMap.mp hr with ⟨i, hmem, hfind⟩
  have hp := List.find?_some hfind
  simp only [Bool.and_eq_true, decide_eq_true_eq] at hp
  exact ⟨hp.2 ▸ hmem, List.mem_of_find?_eq_some hfind⟩

/-- Witness for C3's amended theorem: an async `stop 100` dispatch over a
resolved set containing resource 100. -/
theorem dispatch_byids_refilter_async_witness :
    rVm100 ∈ dispatch_set argsAsyncStop100 [rVm100] ∧
      toString rVm100.vmid ∈ argsAsyncStop100.ids ∧ rVm100 ∈ [rVm100] :=
  ⟨by decide,
    dispatch_byids_refilter_async argsAsyncStop100 [rVm100] rVm100 rfl rfl (by decide)
      (by decide)⟩

/-- C3 (counterexample): with `--sync` set, explicit IDs `["100"]` and no
node scope, the dispatcher dispatches a resolved resource whose stringified
ID `200` matches no requested identifier — so the re-filter is not applied
regardless of dispatch mode, contrary to the claim. -/
theorem dispatch_refilter_sync_counterexample :
    argsSyncStop100.sync = true ∧ argsSyncStop100.node = false ∧
      argsSyncStop100.ids = ["100"] ∧
      dispatch_set argsSyncStop100 [rVm200] = [rVm200] ∧
      toString rVm200.vmid ∉ argsSyncStop100.ids := by
  decide

/-- C9: the claim holds for ByIds selections but fails for ByNode ones, and
the source contradicts its own intent there (a slip: the node-scoped branch
stores the integer `resource['vmid']` where its two sibling branches store
`str(resource['vmid'])`).  At the failing input — node `n1` owning
container 100, which has the HA record `ct:100` — the resource is selected,
the stripped `sid` equals the resource's stringified numeric ID, yet the HA
join is empty because the string key `"100"` is not found among the integer
keys, so the `ha` command reports "does not exist" for it. -/
theorem ha_join_bynode_selection_fails :
    (get_filtered_cluster_resources argsNodeHa [rVm100]).resources = [rVm100] ∧
      (get_filtered_cluster_resources argsNodeHa [rVm100]).vmids = [PyKey.int 100] ∧
      pyDrop "ct:100" 3 = toString rVm100.vmid ∧
      get_filtered_cluster_ha_resources (get_filtered_cluster_resources argsNodeHa [rVm100]).vmids
        [haCt100] = [] ∧
      main_vms argsNodeHa [rVm100] [haCt100] "" noSnapshots =
        [Event.printed "lxc/100: does not exist"] := by
  decide

/-- C10 (amended): in a ByNode selection, a requested node is reported in
the "Nodes do not exist" missing list exactly when no compute resource of
the cluster collection is owned by it — whether or not the node itself
exists in the cluster.  An existing node with zero compute resources is
therefore reported identically to a nonexistent node. -/
theorem node_missing_iff_no_compute_resource (nodeKeys : List String)
    (cluster : List Resource) (n : String) :
    n ∈ byNodeMissing nodeKeys cluster ↔
      n ∈ nodeKeys ∧ ¬ ∃ r ∈ cluster, r.node = some n ∧ r.type ∈ computeTypes := by
  simp [byNodeMissing, nodeFound, List.mem_filter, List.any_eq_true]

/-- C10 (counterexample): requesting node `a` over a cluster in which `a`
exists (its own `node`-type entry is present) but owns no compute resource
yields the very same report as requesting `a` over a cluster in which it
does not exist at all: both print `Nodes do not exist: 1. a`. -/
theorem node_report_counterexample :
    nodeEntryA.node = some "a" ∧ (∀ r ∈ [lxcOnB], r.node ≠ some "a") ∧
      (get_filtered_cluster_resources argsNodeA [nodeEntryA, lxcOnB]).events =
        (get_filtered_cluster_resources argsNodeA [lxcOnB]).events ∧
      (get_filtered_cluster_resources argsNodeA [nodeEntryA, lxcOnB]).events =
        [Event.printed "Nodes do not exist:", Event.printed "1. a"] := by
  decide

/-- C5: when no requested identifier of a ByIds selection matches the
stringified numeric ID of any live compute resource, the resolver returns
the empty resource set, and the missing report enumerates every requested
identifier — in first-appearance order, displayed 1-indexed by
`enumerateLines`. -/
theorem byids_all_missing (args : Args) (cluster : List Resource)
    (hn : args.node = false) (hne : args.ids ≠ [])
    (h : ∀ r ∈ cluster, r.type ∈ computeTypes → toString r.vmid ∉ args.ids) :
    (get_filtered_cluster_resources args cluster).resources = [] ∧
      (get_filtered_cluster_resources args cluster).events =
        Event.printed "VMs do not exist:" :: enumerateLines (dedupKeys args.ids) := by
  rw [get_filtered_cluster_resources, hn]
  simp only [Bool.false_eq_true, if_false, if_pos hne]
  constructor
  · apply List.filter_eq_nil_iff.mpr
    intro r hr
    simp only [Bool.and_eq_true, decide_eq_true_eq, not_and]
    intro ht hm
    exact h r hr ht ((mem_dedupKeys _ _).mp hm)
  · have hmiss : byIdsMissing (dedupKeys args.ids) cluster = dedupKeys args.ids := by
      apply List.filter_eq_self.mpr
      intro i hi
      simp only [vmFound, Bool.not_eq_true', List.any_eq_false, Bool.and_eq_true,
        decide_eq_true_eq, not_and]
      intro r hr ht heq
      exact h r hr ht (heq ▸ (mem_dedupKeys _ _).mp hi)
    rw [hmiss, missingReport, if_neg (dedupKeys_ne_nil _ hne)]

/-- Witness for C5 at a concrete input: requesting `7`, `8`, `7` over a
cluster holding only resource 100 resolves to nothing and reports `1. 7`,
`2. 8`. -/
theorem byids_all_missing_witness :
    (get_filtered_cluster_resources argsIds787 [rVm100]).resources = [] ∧
      (get_filtered_cluster_resources argsIds787 [rVm100]).events =
        Event.printed "VMs do not exist:" :: enumerateLines (dedupKeys argsIds787.ids) :=
  byids_all_missing argsIds787 [rVm100] rfl (by decide) (by decide)

/-- C1: whenever the resolved resource set of a `destroy` invocation is
empty, the whole invocation prints diagnostics only — no confirmation
prompt is shown and no remote call (in particular no delete) is issued;
and any action outside the safe-to-broadcast set {`status`, `ha`,
`listsnapshot`} invoked with an empty selector (no `--node` scope, no
explicit IDs) resolves to the empty resource set and the program prints
exactly "No resources found", performing no side effect. -/
theorem destroy_empty_resolution_no_action :
    (∀ (args : Args) (cluster : List Resource) (haOutput : List RawHa) (ci : String)
        (ls : String → List String),
        args.command = "destroy" →
        (get_filtered_cluster_resources args cluster).resources = [] →
        ∀ e ∈ main_vms args cluster haOutput ci ls, e.isPrompt = false ∧ e.isCall = false) ∧
      (∀ (args : Args) (cluster : List Resource) (haOutput : List RawHa) (ci : String)
        (ls : String → List String),
        args.node = false → args.ids = [] → args.command ≠ "status" →
        args.command ≠ "ha" → args.command ≠ "listsnapshot" →
        (get_filtered_cluster_resources args cluster).resources = [] ∧
          main_vms args cluster haOutput ci ls = [Event.printed "No resources found"]) := by
  constructor
  · intro args cluster haOutput ci ls _ hres e he
    rw [main_vms] at he
    simp only [hres, if_pos] at he
    rcases List.mem_append.mp he with he | he
    · exact resolve_only_prints args cluster e he
    · rcases List.mem_singleton.mp he with rfl
      exact ⟨rfl, rfl⟩
  · intro args cluster haOutput ci ls hn hi h1 h2 h3
    have hres : get_filtered_cluster_resources args cluster = ⟨[], [], []⟩ := by
      rw [get_filtered_cluster_resources, hn]
      simp [hi, h1, h2, h3]
    refine ⟨by rw [hres], ?_⟩
    rw [main_vms]
    simp [hres]

/-- Witness for C1 at a concrete input: `destroy` with no node scope and no
IDs over any cluster resolves to nothing, prints exactly
"No resources found", prompts nothing and calls nothing. -/
theorem destroy_empty_resolution_no_action_witness :
    (∀ e ∈ main_vms argsDestroyEmpty [rVm100] [] "" noSnapshots,
        e.isPrompt = false ∧ e.isCall = false) ∧
      (get_filtered_cluster_resources argsDestroyEmpty [rVm100]).resources = [] ∧
        main_vms argsDestroyEmpty [rVm100] [] "" noSnapshots =
          [Event.printed "No resources found"] :=
  ⟨destroy_empty_resolution_no_action.1 argsDestroyEmpty [rVm100] [] "" noSnapshots rfl
      (by decide),
    destroy_empty_resolution_no_action.2 argsDestroyEmpty [rVm100] [] "" noSnapshots rfl rfl
      (by decide) (by decide) (by decide)⟩

/-- C6: for every collection of fetched replication records, high-fidelity
aggregation returns a permutation of the records (nothing dropped or
duplicated) that is sorted for the display contract: ascending guest ID,
records of one guest contiguous and internally in ascending target node
name order; the claim's example `{100: [target=b, target=a], 200:
[target=c]}` comes out as `100(a), 100(b), 200(c)`. -/
theorem replication_grouping_contract :
    (∀ node_configs : List (List RepRec),
        List.Perm (get_filtered_nodes_replication node_configs) node_configs.flatten ∧
          List.Pairwise repLe (get_filtered_nodes_replication node_configs)) ∧
      get_filtered_nodes_replication [[repB, repA], [repC]] = [repA, repB, repC] := by
  constructor
  · intro ncs
    simp only [get_filtered_nodes_replication]
    constructor
    · have h1 : List.Perm
          ((List.insertionSort (fun a b => a ≤ b)
              (dedupKeys (ncs.flatten.map (fun c => c.guest)))).flatMap
            (fun v => List.insertionSort targetLe
              (ncs.flatten.filter (fun c => decide (c.guest = v)))))
          ((List.insertionSort (fun a b => a ≤ b)
              (dedupKeys (ncs.flatten.map (fun c => c.guest)))).flatMap
            (fun v => ncs.flatten.filter (fun c => decide (c.guest = v)))) :=
        List.Perm.flatMap_left _ (fun v _ => List.perm_insertionSort _ _)
      have h2 := (List.perm_insertionSort (fun a b => a ≤ b)
          (dedupKeys (ncs.flatten.map (fun c => c.guest)))).flatMap_right
        (fun v => ncs.flatten.filter (fun c => decide (c.guest = v)))
      have h3 : List.Perm
          ((dedupKeys (ncs.flatten.map (fun c => c.guest))).flatMap
            (fun v => ncs.flatten.filter (fun c => decide (c.guest = v))))
          ncs.flatten :=
        flatMap_filter_key_perm (fun c : RepRec => c.guest)
          (dedupKeys (ncs.flatten.map (fun c : RepRec => c.guest))) ncs.flatten
          (nodup_dedupKeys _)
          (fun a ha => (mem_dedupKeys _ _).mpr (List.mem_map_of_mem _ ha))
      exact h1.trans (h2.trans h3)
    · apply pairwise_repLe_flatMap
      · have hnd : (List.insertionSort (fun a b => a ≤ b)
            (dedupKeys (ncs.flatten.map (fun c => c.guest)))).Nodup :=
          (List.perm_insertionSort _ _).nodup_iff.mpr (nodup_dedupKeys _)
        have hs : List.Sorted (fun a b => a ≤ b)
            (List.insertionSort (fun a b => a ≤ b)
              (dedupKeys (ncs.flatten.map (fun c => c.guest)))) :=
          List.sorted_insertionSort _ _
        exact hs.lt_of_le hnd
      · intro v x hx
        have hx' := (List.mem_insertionSort targetLe).mp hx
        rcases List.mem_filter.mp hx' with ⟨_, hd⟩
        exact of_decide_eq_true hd
      · intro v
        exact List.sorted_insertionSort targetLe _
  · simp [get_filtered_nodes_replication, dedupKeys, List.insertionSort, List.orderedInsert,
      targetLe, repB, repA, repC]
    decide

end Pmx
